import Mathlib

/-!
Verification development for the SAROS dataset pipeline
(`download.py`, `training/evaluate.py`, `training/move_data.py`,
`training/util.py`).

The Python sources are shallowly embedded: pure computations become Lean
functions over `Nat`/`Int`/`Rat`/`List`, filesystem and network side
effects become explicit effect traces over an abstract file-system state,
and results of third-party library calls (SimpleITK, pydicom,
surface-distance) are supplied as explicit environment parameters whose
geometric behaviour follows the libraries' documented semantics.
-/

namespace Saros

/-! ## Numeric preliminaries -/

/-- Python's built-in `round` on an exact rational: round half to even
(banker's rounding), as used by `round(...)` in
`_resample_image_to_thickness`. -/
def pythonRound (q : ℚ) : ℤ :=
  let f := ⌊q⌋
  let frac := q - f
  if frac < 1/2 then f
  else if 1/2 < frac then f + 1
  else if f % 2 = 0 then f else f + 1

/-- `numpy.isclose(a, b)` with the default tolerances
`rtol = 1e-5`, `atol = 1e-8`, on exact rationals:
`|a - b| <= atol + rtol * |b|`. -/
def npIsclose (a b : ℚ) : Bool :=
  |a - b| ≤ 1/100000000 + (1/100000) * |b|

/-- Triples of rationals, used for sizes, spacings and origins. -/
abbrev Triple (α : Type) := α × α × α

/-- Element-wise `numpy.isclose(...).all()` on a triple. -/
def npIscloseTriple (a b : Triple ℚ) : Bool :=
  npIsclose a.1 b.1 && npIsclose a.2.1 b.2.1 && npIsclose a.2.2 b.2.2

/-! ## SimpleITK image model

Only the geometric metadata of a `sitk.Image` is modelled: the voxel
payload is abstracted as an opaque tag `content` that resampling
operations rewrite, so that distinct images stay distinguishable. -/

structure SImage where
  size : Triple ℕ
  spacing : Triple ℚ
  origin : Triple ℚ
  direction : List ℚ
  content : ℕ
  deriving Repr, DecidableEq

/-- Models the `sitk.Resample(image, size, transform, interpolator,
origin, spacing, direction)` overload: the output grid is exactly the
explicitly supplied size/origin/spacing/direction (SimpleITK documented
semantics); the voxel payload is resampled (abstracted). -/
def sitkResampleToGrid (image : SImage) (size : Triple ℕ)
    (origin : Triple ℚ) (spacing : Triple ℚ) (direction : List ℚ) : SImage :=
  { size := size
    spacing := spacing
    origin := origin
    direction := direction
    content := image.content + 1 }

/-- Models the `sitk.Resample(image, referenceImage, transform,
interpolator)` overload: the output grid (size, spacing, origin,
direction) is copied from the reference image (SimpleITK documented
semantics); the voxel payload is resampled (abstracted). -/
def sitkResampleRef (image reference : SImage) : SImage :=
  { size := reference.size
    spacing := reference.spacing
    origin := reference.origin
    direction := reference.direction
    content := image.content + 1 }

/-- Embedding of `_resample_image_to_thickness` from `download.py`:
keeps the in-plane grid, sets the z spacing to `thickness`, and sets the
z size to `round(input_size[2] * input_spacing[2] / thickness)`. -/
def resample_image_to_thickness (image : SImage) (thickness : ℚ) : SImage :=
  let input_size := image.size
  let input_spacing := image.spacing
  let output_spacing : Triple ℚ := (input_spacing.1, input_spacing.2.1, thickness)
  let output_direction := image.direction
  let output_origin := image.origin
  let output_size : Triple ℕ :=
    (input_size.1, input_size.2.1,
      (pythonRound ((input_size.2.2 : ℚ) * input_spacing.2.2 / output_spacing.2.2)).toNat)
  sitkResampleToGrid image output_size output_origin output_spacing output_direction

/-- Embedding of `_set_ignore_label` from `download.py`: rewrites the
voxel payload (non-segmented slices set to `label`) and copies the
geometric information from the input, so only `content` changes. -/
def set_ignore_label (seg : SImage) (_label : ℤ) : SImage :=
  { seg with content := seg.content + 2 }

/-! ## Filesystem and network effects of `download.py`

Side effects are recorded as an explicit trace; the filesystem is the
list of existing paths. -/

inductive Effect where
  /-- `pathlib.Path.mkdir(parents=True, exist_ok=True)` -/
  | mkdirP (path : String)
  /-- `_download_series(target_path, series_instance_uid, token)`:
  a `GET /getImage` request with the series UID and bearer token,
  streamed into `target_path`. -/
  | download (target : String) (uid : String) (token : String)
  /-- `_extract_series(target_dir, archive_path)`: unzip the archive
  into the directory. -/
  | extract (dir : String) (archive : String)
  /-- a file write (`sitk.WriteImage` or equivalent). -/
  | write (path : String)
  /-- `shutil.copy2`. -/
  | copy (src : String) (dst : String)
  /-- `shutil.move`. -/
  | move (src : String) (dst : String)
  /-- `pbar.update()`. -/
  | pbarUpdate
  deriving Repr, DecidableEq

def Effect.isDownload : Effect → Bool
  | .download _ _ _ => true
  | _ => false

def Effect.isExtract : Effect → Bool
  | .extract _ _ => true
  | _ => false

/-- The destination path an effect creates on the filesystem, if any. -/
def Effect.createdPath : Effect → Option String
  | .mkdirP p => some p
  | .download p _ _ => some p
  | .write p => some p
  | .copy _ d => some d
  | .move _ d => some d
  | _ => none

/-- `pathlib.Path.name`: the final path component. -/
def basename (p : String) : String := (p.splitOn "/").getLastD p

/-- The keyword arguments of `handle_case` other than the directories. -/
structure CaseConfig where
  series_instance_uid : String
  regions_series_instance_uid : String
  parts_series_instance_uid : String
  authentication_token : String
  save_original_image : Bool
  save_meta_dicoms : Bool
  save_dicoms : Bool
  set_ignore : Option ℤ
  force : Bool
  deriving Repr, DecidableEq

/-- Results of the third-party library calls inside `handle_case`:
the CT image read by `sitk.ImageSeriesReader`, the two segmentations
read by `pydicom_seg.MultiClassReader`, and the DICOM file list from
`GetGDCMSeriesFileNames` (assumed non-empty for a downloaded series). -/
structure CaseEnv where
  loaded_image : SImage
  regions_seg : SImage
  parts_seg : SImage
  dcm_files : List String
  deriving Repr, DecidableEq

/-- The resume check at the top of `handle_case` (`download.py`
lines 50–62): skip when not forced and all selected outputs exist. -/
def skip_check (fs : List String) (target_dir : String) (cfg : CaseConfig) : Bool :=
  !cfg.force
  && fs.contains (target_dir ++ "/image.nii.gz")
  && (!cfg.save_original_image || fs.contains (target_dir ++ "/image_original.nii.gz"))
  && (!cfg.save_dicoms || fs.contains (target_dir ++ "/dicom"))
  && (!cfg.save_meta_dicoms
      || (fs.contains (target_dir ++ "/meta_first.dcm")
          && fs.contains (target_dir ++ "/meta_last.dcm")))

/-- Effects of `_load_series`: optionally write the original image,
then either move all DICOM files into `target_dir/dicom` (copying the
first and last to the meta files first) or move just the first and last
DICOM files to the meta files. -/
def load_series_effects (target_dir : String) (dcm_files : List String)
    (save_original_image save_meta_dicoms save_dicoms : Bool) : List Effect :=
  (if save_original_image then [Effect.write (target_dir ++ "/image_original.nii.gz")] else [])
  ++ (if save_dicoms then
        Effect.mkdirP (target_dir ++ "/dicom")
          :: dcm_files.enum.flatMap (fun p =>
              (if save_meta_dicoms then
                 if p.1 = 0 then [Effect.copy p.2 (target_dir ++ "/meta_first.dcm")]
                 else if p.1 = dcm_files.length - 1 then
                   [Effect.copy p.2 (target_dir ++ "/meta_last.dcm")]
                 else []
               else [])
              ++ [Effect.move p.2 (target_dir ++ "/dicom/" ++ basename p.2)])
      else if save_meta_dicoms then
        [Effect.move (dcm_files.headD "") (target_dir ++ "/meta_first.dcm"),
         Effect.move (dcm_files.getLastD "") (target_dir ++ "/meta_last.dcm")]
      else [])

/-- Effects of `_load_segmentation` for the DICOM SEG file
`dicom_file` whose stem is `segname`. -/
def load_segmentation_effects (target_dir dicom_file segname : String)
    (save_original_image save_meta_dicoms save_dicoms : Bool) : List Effect :=
  (if save_original_image then
     [Effect.write (target_dir ++ "/" ++ segname ++ "_original.nii.gz")] else [])
  ++ (if save_meta_dicoms then
        [Effect.copy dicom_file (target_dir ++ "/" ++ segname ++ "_meta_first.dcm")] else [])
  ++ (if save_dicoms then
        [Effect.mkdirP (target_dir ++ "/dicom"),
         Effect.move dicom_file (target_dir ++ "/dicom/" ++ basename dicom_file)]
      else [])

/-- All effects of `handle_case` after the extraction phase: the loads
(with their conditional writes) and the three final `sitk.WriteImage`
calls plus the last progress update. -/
def write_phase_effects (working_dir target_dir : String) (cfg : CaseConfig)
    (env : CaseEnv) : List Effect :=
  load_series_effects target_dir env.dcm_files
      cfg.save_original_image cfg.save_meta_dicoms cfg.save_dicoms
  ++ load_segmentation_effects target_dir (working_dir ++ "/body-regions.dcm") "body-regions"
      cfg.save_original_image cfg.save_meta_dicoms cfg.save_dicoms
  ++ load_segmentation_effects target_dir (working_dir ++ "/body-parts.dcm") "body-parts"
      cfg.save_original_image cfg.save_meta_dicoms cfg.save_dicoms
  ++ [Effect.write (target_dir ++ "/image.nii.gz"),
      Effect.write (target_dir ++ "/body-regions.nii.gz"),
      Effect.write (target_dir ++ "/body-parts.nii.gz"),
      Effect.pbarUpdate]

/-- The `(name, series_instance_uid)` download list built in
`handle_case`. -/
def downloadsOf (cfg : CaseConfig) : List (String × String) :=
  [("image", cfg.series_instance_uid),
   ("body-regions", cfg.regions_series_instance_uid),
   ("body-parts", cfg.parts_series_instance_uid)]

/-- The full effect trace of a non-skipped `handle_case` run: make the
directories, download the three archives, extract them, then run the
write phase, with the progress-bar updates in program order. -/
def case_trace (working_dir target_dir : String) (cfg : CaseConfig)
    (env : CaseEnv) : List Effect :=
  [Effect.mkdirP target_dir, Effect.mkdirP working_dir]
  ++ (downloadsOf cfg).map (fun d =>
       Effect.download (working_dir ++ "/" ++ d.1 ++ ".zip") d.2
         cfg.authentication_token)
  ++ [Effect.pbarUpdate]
  ++ (downloadsOf cfg).map (fun d =>
       Effect.extract working_dir (working_dir ++ "/" ++ d.1 ++ ".zip"))
  ++ [Effect.pbarUpdate]
  ++ write_phase_effects working_dir target_dir cfg env

/-- Embedding of `handle_case` from `download.py`. The result is the
effect trace together with the filesystem after the call; a failing
`assert` becomes `.error`. The resume check returns immediately with an
empty trace. -/
def handle_case (fs : List String) (working_dir target_dir : String)
    (cfg : CaseConfig) (env : CaseEnv) :
    Except String (List Effect × List String) :=
  if skip_check fs target_dir cfg then .ok ([], fs)
  else
    let image := resample_image_to_thickness env.loaded_image 5
    let body_regions := sitkResampleRef env.regions_seg image
    let body_parts := sitkResampleRef env.parts_seg image
    if body_regions.size ≠ image.size then
      .error (basename target_dir ++ ": Unexpected shape after resampling")
    else if !npIscloseTriple body_regions.spacing image.spacing then
      .error (basename target_dir ++ ": Image and segmentation do not have the same spacing")
    else if body_parts.size ≠ image.size then
      .error (basename target_dir ++ ": Unexpected shape after resampling")
    else if !npIscloseTriple body_parts.spacing image.spacing then
      .error (basename target_dir ++ ": Image and segmentation do not have the same spacing")
    else
      let trace := case_trace working_dir target_dir cfg env
      .ok (trace, fs ++ trace.filterMap Effect.createdPath)

/-! ## Main-loop token refresh (`download.py` `__main__`, lines 412–428) -/

/-- The mutable state of the `__main__` download loop that the refresh
logic touches: the three values returned by the last authentication,
the timestamp of that authentication (in whole seconds), and the value
of the shared `mp.Array` read by all workers. -/
structure MainLoopState where
  authentication_token : String
  refresh_token : String
  token_expires_in : ℕ
  authentication_timestamp : ℤ
  shared_authentication_token : String
  deriving Repr, DecidableEq

/-- `int(token_expires_in * 0.75)`: `0.75` is exactly `3/4` in binary
floating point and the product is exact for realistic expiry values, so
truncation gives `token_expires_in * 3 / 4` in natural division. -/
def token_refresh_threshold (token_expires_in : ℕ) : ℕ :=
  token_expires_in * 3 / 4

/-- Embedding of the refresh step executed after each completed unit of
work in the main loop: when the elapsed time strictly exceeds the
threshold, call `refresh_authentication_token` on the current refresh
token, store the new access token into the shared array, and reset the
timestamp to the current time; otherwise leave the state unchanged.
`refresh_fn` stands for the remote call and returns
`(access_token, refresh_token, expires_in)`. -/
def main_loop_refresh (st : MainLoopState) (now : ℤ)
    (refresh_fn : String → String × String × ℕ) : MainLoopState :=
  if (token_refresh_threshold st.token_expires_in : ℤ) <
      now - st.authentication_timestamp then
    let r := refresh_fn st.refresh_token
    { authentication_token := r.1
      refresh_token := r.2.1
      token_expires_in := r.2.2
      authentication_timestamp := now
      shared_authentication_token := r.1 }
  else st

/-! ## Worker entry and cooperative cancellation (`download.py`
`_worker`, lines 235–264, and the `KeyboardInterrupt` handler,
lines 429–440) -/

/-- The columns of one `info.csv` row used by `_worker`. -/
structure WorkerRow where
  id : String
  tcia_series_instance_uid : String
  regions_series_instance_uid : String
  parts_series_instance_uid : String
  deriving Repr, DecidableEq

/-- The parsed command-line arguments consumed by `_worker`. -/
structure WorkerArgs where
  target_dir : String
  save_original_image : Bool
  save_meta_dicoms : Bool
  save_dicoms : Bool
  set_ignore : Option ℤ
  force_download : Bool
  deriving Repr, DecidableEq

/-- A record of the arguments `_worker` passes to `handle_case`. -/
structure HandleCaseCall where
  working_dir : String
  target_dir : String
  cfg : CaseConfig
  deriving Repr, DecidableEq

/-- Embedding of `_worker`: if the shared stop event is already set
when the invocation starts, return immediately (`none`); otherwise
call `handle_case` with directories derived from the row id and the
token read from the shared array. -/
def worker (stop_event_is_set : Bool) (row : WorkerRow) (args : WorkerArgs)
    (shared_token : String) (tmp_dir : String) : Option HandleCaseCall :=
  if stop_event_is_set then none
  else
    some
      { working_dir := tmp_dir ++ "/" ++ row.id
        target_dir := args.target_dir ++ "/" ++ row.id
        cfg :=
          { series_instance_uid := row.tcia_series_instance_uid
            regions_series_instance_uid := row.regions_series_instance_uid
            parts_series_instance_uid := row.parts_series_instance_uid
            authentication_token := shared_token
            save_original_image := args.save_original_image
            save_meta_dicoms := args.save_meta_dicoms
            save_dicoms := args.save_dicoms
            set_ignore := args.set_ignore
            force := args.force_download } }

/-- The actions of the `except KeyboardInterrupt` branch of
`__main__`, in program order. -/
inductive MainAction where
  | writeMessage
  | setStopEvent
  | poolClose
  | poolJoin
  deriving Repr, DecidableEq

/-- Embedding of the `KeyboardInterrupt` handler: print a message, set
the shared stop event, then close and join the pool (letting active
jobs finish). -/
def keyboard_interrupt_handler : List MainAction :=
  [MainAction.writeMessage, MainAction.setStopEvent,
   MainAction.poolClose, MainAction.poolJoin]

/-! ## `compute_metrics` (`training/evaluate.py`, lines 25–68) -/

/-- The `metrics` list at the top of `evaluate.py`. -/
def metricNames : List String :=
  ["precision", "recall", "dice", "surface_distance_3mm"]

/-- Results of the calls into the third-party `surface_distance`
library, supplied as an environment: the two directed average surface
distances and the surface Dice at 1/2/3 mm tolerance. -/
structure SurfaceEnv where
  avg_gt_to_pred : ℚ
  avg_pred_to_gt : ℚ
  surface_dice_1mm : ℚ
  surface_dice_2mm : ℚ
  surface_dice_3mm : ℚ
  deriving Repr, DecidableEq

/-- `arr.sum()` of a flattened boolean array: the number of `true`
voxels. -/
def countTrue (xs : List Bool) : ℕ := xs.count true

/-- `(gt & pred).sum()` on flattened boolean arrays of equal shape. -/
def tpCount (gt pred : List Bool) : ℕ :=
  (gt.zip pred).countP (fun p => p.1 && p.2)

/-- `(~gt & pred).sum()`. -/
def fpCount (gt pred : List Bool) : ℕ :=
  (gt.zip pred).countP (fun p => !p.1 && p.2)

/-- `(gt & ~pred).sum()`. -/
def fnCount (gt pred : List Bool) : ℕ :=
  (gt.zip pred).countP (fun p => p.1 && !p.2)

/-- Embedding of `compute_metrics`: boolean arrays are flattened to
lists, the returned dictionary becomes an association list (all keys
are distinct, so lookup order is irrelevant), and real-valued metrics
are exact rationals. `gt.max()` on a boolean array is its `any`. -/
def compute_metrics (gt pred : List Bool) (env : SurfaceEnv) :
    List (String × ℚ) :=
  if !gt.any id && !pred.any id then
    [("tp", 0), ("fp", 0), ("fn", 0)]
  else if gt.any id && !pred.any id then
    [("tp", 0), ("fp", 0), ("fn", (countTrue gt : ℚ))]
      ++ metricNames.map (fun m => (m, (0 : ℚ)))
  else if pred.any id && !gt.any id then
    [("tp", 0), ("fp", (countTrue pred : ℚ)), ("fn", 0)]
      ++ metricNames.map (fun m => (m, (0 : ℚ)))
  else
    let tp : ℚ := (tpCount gt pred : ℕ)
    let fp : ℚ := (fpCount gt pred : ℕ)
    let fn : ℚ := (fnCount gt pred : ℕ)
    [("tp", tp), ("fp", fp), ("fn", fn),
     ("precision", tp / (tp + fp)),
     ("recall", tp / (tp + fn)),
     ("dice", tp / (tp + (1/2) * fp + (1/2) * fn)),
     ("avg_surface_distance", (env.avg_gt_to_pred + env.avg_pred_to_gt) / 2),
     ("surface_distance_1mm", env.surface_dice_1mm),
     ("surface_distance_2mm", env.surface_dice_2mm),
     ("surface_distance_3mm", env.surface_dice_3mm)]

/-! ## `generate_dataset` (`training/move_data.py`, lines 15–109) -/

/-- One 2D z-slice of a volume, as rows of voxel values. -/
abbrev Slice2D := List (List ℕ)

/-- Whether a 2D slice contains any voxel equal to 255. -/
def sliceHas255 (sl : Slice2D) : Bool :=
  sl.any (fun r => r.any (fun v => v == 255))

/-- One `info_df` row together with the case's two volumes, each given
as its list of z-slices (axis 2 of the RAS-reoriented array). -/
structure CaseRow where
  id : String
  split : String
  image : List Slice2D
  label : List Slice2D
  deriving Repr, DecidableEq

/-- One exported 2D image/label pair: `name` is `f"{row.id}_{sl}"`,
`layout` is the `"Tr"`/`"Ts"` suffix of the `images`/`labels` folders
it is written into. -/
structure ExportedSlice where
  name : String
  layout : String
  img : Slice2D
  label : Slice2D
  deriving Repr, DecidableEq

/-- One entry of the `splits` list: a train id list and a val id
list. -/
structure FoldSplit where
  train : List String
  val : List String
  deriving Repr, DecidableEq

/-- The mutable state threaded through the row loop of
`generate_dataset`. `eval_copies` records the file names copied into
the `nnUNet_eval` folders for test rows. -/
structure DatasetState where
  num_training_cases : ℕ
  splits : List FoldSplit
  exports : List ExportedSlice
  eval_copies : List String
  deriving Repr, DecidableEq

/-- The five training split names accepted by `generate_dataset`. -/
def trainingSplits : List String :=
  ["fold-1", "fold-2", "fold-3", "fold-4", "fold-5"]

/-- Python's `sub in s` substring test on strings. -/
def pyContains (sub s : String) : Bool :=
  decide (sub.data <:+: s.data)

/-- Python's `s.split(c)` on the character list of a string: split at
every occurrence of `c`. -/
def splitOnCharAux (c : Char) : List Char → List Char → List (List Char)
  | [], acc => [acc.reverse]
  | x :: xs, acc =>
    if x = c then acc.reverse :: splitOnCharAux c xs []
    else splitOnCharAux c xs (x :: acc)

/-- `int(...)` on a string of decimal digits, `none` otherwise. -/
def charListToNat? (l : List Char) : Option ℕ :=
  if l ≠ [] ∧ l.all (fun c => c.isDigit) then
    some (l.foldl (fun n c => 10 * n + (c.toNat - 48)) 0)
  else none

/-- `int(row.split.split("-")[1]) - 1`: take the component after the
first dash and parse it as a decimal integer (the reachable inputs are
`fold-1` … `fold-5`). -/
def fold_id_of (split : String) : ℕ :=
  (charListToNat? ((splitOnCharAux '-' split.data []).getD 1 [])).getD 0 - 1

/-- `np.where(np.all(label != 255, axis=(0, 1)))[0]`: the indices (with
their slices) of the z-slices containing no 255. -/
def annotatedSlices (label : List Slice2D) : List (ℕ × Slice2D) :=
  label.enum.filter (fun p => !sliceHas255 p.2)

/-- The body of `for i in range(5)`: append `new_id` to the `val` list
of the split at index `fid` and to the `train` list of every other
split. -/
def update_splits (splits : List FoldSplit) (fid : ℕ) (new_id : String) :
    List FoldSplit :=
  match splits, fid with
  | [], _ => []
  | s :: rest, 0 =>
      { s with val := s.val ++ [new_id] } ::
        rest.map (fun r => { r with train := r.train ++ [new_id] })
  | s :: rest, n + 1 =>
      { s with train := s.train ++ [new_id] } :: update_splits rest n new_id

/-- The body of the `for sl in annotated_slices` loop for one slice
`p = (sl, label_sl)`: update the split bookkeeping when the row is a
training row, then export the image/label slice pair. -/
def process_slice (row : CaseRow) (layout : String) (st : DatasetState)
    (p : ℕ × Slice2D) : DatasetState :=
  let new_id := row.id ++ "_" ++ toString p.1
  let st1 :=
    if pyContains "fold" row.split then
      { st with
        num_training_cases := st.num_training_cases + 1
        splits := update_splits st.splits (fold_id_of row.split) new_id }
    else st
  { st1 with
    exports := st1.exports ++
      [{ name := new_id, layout := layout,
         img := row.image.getD p.1 [], label := p.2 }] }

/-- One iteration of the row loop of `generate_dataset`: classify the
split (raising `ValueError` on anything that is neither a fold nor
`test`), record the evaluation copies for test rows, then process the
annotated slices. -/
def process_row (row : CaseRow) (st : DatasetState) :
    Except String DatasetState :=
  if trainingSplits.contains row.split then
    .ok ((annotatedSlices row.label).foldl (process_slice row "Tr") st)
  else if row.split = "test" then
    .ok ((annotatedSlices row.label).foldl (process_slice row "Ts")
      { st with
        eval_copies := st.eval_copies ++
          [row.id ++ "_0000.nii.gz", row.id ++ ".nii.gz"] })
  else .error row.split

/-- The initial `splits` list: five empty train/val pairs. -/
def initialSplits : List FoldSplit :=
  List.replicate 5 { train := [], val := [] }

/-- Embedding of the row loop of `generate_dataset` over the rows of
`info_df`. -/
def generate_dataset (rows : List CaseRow) : Except String DatasetState :=
  rows.foldlM (fun st row => process_row row st)
    { num_training_cases := 0, splits := initialSplits,
      exports := [], eval_copies := [] }

/-! ## Helper lemmas -/

theorem pythonRound_nonneg (q : ℚ) (h : 0 ≤ q) : 0 ≤ pythonRound q := by
  have hf : (0 : ℤ) ≤ ⌊q⌋ := Int.floor_nonneg.mpr h
  unfold pythonRound
  dsimp only
  split_ifs <;> omega

theorem npIsclose_self (a : ℚ) : npIsclose a a = true := by
  simp only [npIsclose, sub_self, abs_zero, decide_eq_true_eq]
  positivity

theorem npIscloseTriple_self (a : Triple ℚ) : npIscloseTriple a a = true := by
  simp [npIscloseTriple, npIsclose_self]

/-! ## Claim theorems -/

/-- C5. Resampling geometry: for every input image with size
`(nx, ny, nz)` and spacing `(sx, sy, sz)` (with `sz ≥ 0`, as for any
SimpleITK image), `_resample_image_to_thickness` with thickness 5
returns an image whose spacing is `(sx, sy, 5)`, whose size is
`(nx, ny, round(nz * sz / 5))` with Python's `round`, and whose origin
and direction equal those of the input. -/
theorem resample_image_to_thickness_geometry (image : SImage)
    (h : 0 ≤ image.spacing.2.2) :
    (resample_image_to_thickness image 5).spacing
      = (image.spacing.1, image.spacing.2.1, 5) ∧
    (resample_image_to_thickness image 5).size.1 = image.size.1 ∧
    (resample_image_to_thickness image 5).size.2.1 = image.size.2.1 ∧
    ((resample_image_to_thickness image 5).size.2.2 : ℤ)
      = pythonRound ((image.size.2.2 : ℚ) * image.spacing.2.2 / 5) ∧
    (resample_image_to_thickness image 5).origin = image.origin ∧
    (resample_image_to_thickness image 5).direction = image.direction := by
  refine ⟨rfl, rfl, rfl, ?_, rfl, rfl⟩
  have hq : 0 ≤ (image.size.2.2 : ℚ) * image.spacing.2.2 / 5 := by positivity
  simpa [resample_image_to_thickness, sitkResampleToGrid] using
    Int.toNat_of_nonneg (pythonRound_nonneg _ hq)

/-- A concrete CT-like image for witnesses: 512×512×100 voxels,
1×1×2 mm spacing. -/
def imageA : SImage :=
  { size := (512, 512, 100)
    spacing := (1, 1, 2)
    origin := (0, 0, 0)
    direction := [1, 0, 0, 0, 1, 0, 0, 0, 1]
    content := 0 }

theorem resample_image_to_thickness_geometry_witness :
    (resample_image_to_thickness imageA 5).spacing
      = (imageA.spacing.1, imageA.spacing.2.1, 5) ∧
    (resample_image_to_thickness imageA 5).size.1 = imageA.size.1 ∧
    (resample_image_to_thickness imageA 5).size.2.1 = imageA.size.2.1 ∧
    ((resample_image_to_thickness imageA 5).size.2.2 : ℤ)
      = pythonRound ((imageA.size.2.2 : ℚ) * imageA.spacing.2.2 / 5) ∧
    (resample_image_to_thickness imageA 5).origin = imageA.origin ∧
    (resample_image_to_thickness imageA 5).direction = imageA.direction :=
  resample_image_to_thickness_geometry imageA (by norm_num [imageA])

/-- C4. Alignment after resampling: in `handle_case`, after the
body-regions and body-parts segmentations are resampled with the
resampled CT image as the reference, each has exactly the image's size
and an element-wise `np.isclose` spacing, so both `assert` branches are
unreachable and `handle_case` never returns an assertion error. -/
theorem handle_case_assertions_hold (fs : List String) (w t : String)
    (cfg : CaseConfig) (env : CaseEnv) :
    ((sitkResampleRef env.regions_seg
        (resample_image_to_thickness env.loaded_image 5)).size
      = (resample_image_to_thickness env.loaded_image 5).size) ∧
    (npIscloseTriple
        (sitkResampleRef env.regions_seg
          (resample_image_to_thickness env.loaded_image 5)).spacing
        (resample_image_to_thickness env.loaded_image 5).spacing = true) ∧
    ((sitkResampleRef env.parts_seg
        (resample_image_to_thickness env.loaded_image 5)).size
      = (resample_image_to_thickness env.loaded_image 5).size) ∧
    (npIscloseTriple
        (sitkResampleRef env.parts_seg
          (resample_image_to_thickness env.loaded_image 5)).spacing
        (resample_image_to_thickness env.loaded_image 5).spacing = true) ∧
    (handle_case fs w t cfg env).isOk = true := by
  refine ⟨rfl, npIscloseTriple_self _, rfl, npIscloseTriple_self _, ?_⟩
  unfold handle_case
  split
  · rfl
  · simp only [sitkResampleRef, npIscloseTriple_self, ne_eq]
    norm_num
    rfl

/-- C2. Mid-run token refresh: after each completed unit of work, if
the elapsed time since the last authentication strictly exceeds
`int(token_expires_in * 0.75)` seconds, the loop calls the refresh
function on the current refresh token, stores the new access token in
the shared array, and resets the authentication timestamp; otherwise
the whole state — in particular the shared token — is unchanged. -/
theorem main_loop_refresh_spec (st : MainLoopState) (now : ℤ)
    (f : String → String × String × ℕ) :
    ((token_refresh_threshold st.token_expires_in : ℤ)
        < now - st.authentication_timestamp →
      main_loop_refresh st now f =
        { authentication_token := (f st.refresh_token).1
          refresh_token := (f st.refresh_token).2.1
          token_expires_in := (f st.refresh_token).2.2
          authentication_timestamp := now
          shared_authentication_token := (f st.refresh_token).1 }) ∧
    (¬ ((token_refresh_threshold st.token_expires_in : ℤ)
        < now - st.authentication_timestamp) →
      main_loop_refresh st now f = st) := by
  constructor
  · intro h
    simp [main_loop_refresh, h]
  · intro h
    simp [main_loop_refresh, h]

/-- A stand-in for the remote refresh endpoint used in witnesses. -/
def refreshStub : String → String × String × ℕ :=
  fun _ => ("tok2", "ref2", 7200)

/-- A loop state whose token was obtained 80 seconds ago with a
100-second expiry (threshold 75). -/
def loopStateA : MainLoopState :=
  { authentication_token := "tok1"
    refresh_token := "ref1"
    token_expires_in := 100
    authentication_timestamp := 20
    shared_authentication_token := "tok1" }

theorem main_loop_refresh_spec_witness :
    main_loop_refresh loopStateA 100 refreshStub =
      { authentication_token := "tok2"
        refresh_token := "ref2"
        token_expires_in := 7200
        authentication_timestamp := 100
        shared_authentication_token := "tok2" } ∧
    main_loop_refresh loopStateA 30 refreshStub = loopStateA :=
  ⟨(main_loop_refresh_spec loopStateA 100 refreshStub).1 (by decide),
   (main_loop_refresh_spec loopStateA 30 refreshStub).2 (by decide)⟩

/-- C3. Cooperative cancellation: a `_worker` invocation that starts
with the stop event already set returns `none` — it never calls
`handle_case` — and the `KeyboardInterrupt` handler sets the stop event
before closing the pool and closes it before joining it, so active jobs
finish while no new case processing begins. -/
theorem worker_stop_respected :
    (∀ (row : WorkerRow) (args : WorkerArgs) (tok tmp : String),
      worker true row args tok tmp = none) ∧
    keyboard_interrupt_handler.indexOf MainAction.setStopEvent
      < keyboard_interrupt_handler.indexOf MainAction.poolClose ∧
    keyboard_interrupt_handler.indexOf MainAction.poolClose
      < keyboard_interrupt_handler.indexOf MainAction.poolJoin ∧
    MainAction.setStopEvent ∈ keyboard_interrupt_handler := by
  refine ⟨fun _ _ _ _ => rfl, by decide, by decide, by decide⟩

/-- C1. Resume support: when `force` is `False` and all output files
selected by the flags already exist (`image.nii.gz` always;
`image_original.nii.gz` when `save_original_image`; the `dicom`
directory when `save_dicoms`; `meta_first.dcm` and `meta_last.dcm` when
`save_meta_dicoms`), `handle_case` returns immediately with an empty
effect trace — no download, extraction or write — and the filesystem is
unchanged. -/
theorem handle_case_resume_skip (fs : List String) (w t : String)
    (cfg : CaseConfig) (env : CaseEnv)
    (hforce : cfg.force = false)
    (himg : (t ++ "/image.nii.gz") ∈ fs)
    (horig : cfg.save_original_image = true →
      (t ++ "/image_original.nii.gz") ∈ fs)
    (hdcm : cfg.save_dicoms = true → (t ++ "/dicom") ∈ fs)
    (hmeta : cfg.save_meta_dicoms = true →
      (t ++ "/meta_first.dcm") ∈ fs ∧ (t ++ "/meta_last.dcm") ∈ fs) :
    handle_case fs w t cfg env = .ok ([], fs) := by
  have hs : skip_check fs t cfg = true := by
    cases hso : cfg.save_original_image <;>
      cases hsd : cfg.save_dicoms <;>
        cases hsm : cfg.save_meta_dicoms <;>
          simp_all [skip_check, List.elem_iff]
  simp [handle_case, hs]

/-- A configuration with every save flag on and `force` off. -/
def cfgA : CaseConfig :=
  { series_instance_uid := "1.2.3"
    regions_series_instance_uid := "1.2.4"
    parts_series_instance_uid := "1.2.5"
    authentication_token := "tokA"
    save_original_image := true
    save_meta_dicoms := true
    save_dicoms := true
    set_ignore := none
    force := false }

/-- A library environment for witnesses. -/
def envA : CaseEnv :=
  { loaded_image := imageA
    regions_seg := imageA
    parts_seg := imageA
    dcm_files := ["wd/a.dcm", "wd/b.dcm"] }

/-- A filesystem on which every output of case `td` already exists. -/
def fsA : List String :=
  ["td/image.nii.gz", "td/image_original.nii.gz", "td/dicom",
   "td/meta_first.dcm", "td/meta_last.dcm"]

theorem handle_case_resume_skip_witness :
    handle_case fsA "wd" "td" cfgA envA = .ok ([], fsA) :=
  handle_case_resume_skip fsA "wd" "td" cfgA envA rfl
    (by decide) (fun _ => by decide) (fun _ => by decide)
    (fun _ => ⟨by decide, by decide⟩)

theorem handle_case_of_not_skip (fs : List String) (w t : String)
    (cfg : CaseConfig) (env : CaseEnv)
    (hskip : skip_check fs t cfg = false) :
    handle_case fs w t cfg env =
      .ok (case_trace w t cfg env,
        fs ++ (case_trace w t cfg env).filterMap Effect.createdPath) := by
  unfold handle_case
  rw [if_neg (by simp [hskip])]
  simp [sitkResampleRef, npIscloseTriple_self]

theorem load_series_effects_not_download_extract (t : String)
    (dcm : List String) (so sm sd : Bool) :
    ∀ e ∈ load_series_effects t dcm so sm sd,
      (!e.isDownload && !e.isExtract) = true := by
  intro e he
  unfold load_series_effects at he
  rcases List.mem_append.1 he with h | h
  · split at h
    · rcases List.mem_singleton.1 h with rfl; rfl
    · exact absurd h (List.not_mem_nil e)
  · split at h
    · rcases List.mem_cons.1 h with rfl | h
      · rfl
      · obtain ⟨p, _, he2⟩ := List.mem_flatMap.1 h
        rcases List.mem_append.1 he2 with h2 | h2
        · split at h2
          · split at h2
            · rcases List.mem_singleton.1 h2 with rfl; rfl
            · split at h2
              · rcases List.mem_singleton.1 h2 with rfl; rfl
              · exact absurd h2 (List.not_mem_nil e)
          · exact absurd h2 (List.not_mem_nil e)
        · rcases List.mem_singleton.1 h2 with rfl; rfl
    · split at h
      · rcases List.mem_cons.1 h with rfl | h
        · rfl
        · rcases List.mem_singleton.1 h with rfl; rfl
      · exact absurd h (List.not_mem_nil e)

theorem load_segmentation_effects_not_download_extract
    (t df sn : String) (so sm sd : Bool) :
    ∀ e ∈ load_segmentation_effects t df sn so sm sd,
      (!e.isDownload && !e.isExtract) = true := by
  intro e he
  unfold load_segmentation_effects at he
  rcases List.mem_append.1 he with h | h
  · rcases List.mem_append.1 h with h | h
    · split at h
      · rcases List.mem_singleton.1 h with rfl; rfl
      · exact absurd h (List.not_mem_nil e)
    · split at h
      · rcases List.mem_singleton.1 h with rfl; rfl
      · exact absurd h (List.not_mem_nil e)
  · split at h
    · rcases List.mem_cons.1 h with rfl | h
      · rfl
      · rcases List.mem_singleton.1 h with rfl; rfl
    · exact absurd h (List.not_mem_nil e)

theorem write_phase_effects_no_download_extract (w t : String)
    (cfg : CaseConfig) (env : CaseEnv) :
    (write_phase_effects w t cfg env).all
      (fun e => !e.isDownload && !e.isExtract) = true := by
  rw [List.all_eq_true]
  intro e he
  unfold write_phase_effects at he
  rcases List.mem_append.1 he with h | h
  · rcases List.mem_append.1 h with h | h
    · rcases List.mem_append.1 h with h | h
      · exact load_series_effects_not_download_extract _ _ _ _ _ e h
      · exact load_segmentation_effects_not_download_extract _ _ _ _ _ _ e h
    · exact load_segmentation_effects_not_download_extract _ _ _ _ _ _ e h
  · rcases List.mem_cons.1 h with rfl | h
    · rfl
    · rcases List.mem_cons.1 h with rfl | h
      · rfl
      · rcases List.mem_cons.1 h with rfl | h
        · rfl
        · rcases List.mem_singleton.1 h with rfl; rfl

/-- C6. Per-case download then unpack: for a case not skipped by the
resume check, `handle_case` performs exactly three downloads — the
image, body-regions and body-parts series, each with its series
instance UID and the current bearer token — completes all three before
any extraction, then extracts each archive into the case's working
directory; the remainder of the trace contains no further download or
extraction. -/
theorem handle_case_download_then_extract (fs : List String) (w t : String)
    (cfg : CaseConfig) (env : CaseEnv)
    (hskip : skip_check fs t cfg = false) :
    ∃ fs2,
      handle_case fs w t cfg env =
        .ok ([Effect.mkdirP t, Effect.mkdirP w,
              Effect.download (w ++ "/image.zip") cfg.series_instance_uid
                cfg.authentication_token,
              Effect.download (w ++ "/body-regions.zip")
                cfg.regions_series_instance_uid cfg.authentication_token,
              Effect.download (w ++ "/body-parts.zip")
                cfg.parts_series_instance_uid cfg.authentication_token,
              Effect.pbarUpdate,
              Effect.extract w (w ++ "/image.zip"),
              Effect.extract w (w ++ "/body-regions.zip"),
              Effect.extract w (w ++ "/body-parts.zip"),
              Effect.pbarUpdate] ++ write_phase_effects w t cfg env, fs2) ∧
      (write_phase_effects w t cfg env).all
        (fun e => !e.isDownload && !e.isExtract) = true := by
  have htr : case_trace w t cfg env =
      [Effect.mkdirP t, Effect.mkdirP w,
       Effect.download (w ++ "/image.zip") cfg.series_instance_uid
         cfg.authentication_token,
       Effect.download (w ++ "/body-regions.zip")
         cfg.regions_series_instance_uid cfg.authentication_token,
       Effect.download (w ++ "/body-parts.zip")
         cfg.parts_series_instance_uid cfg.authentication_token,
       Effect.pbarUpdate,
       Effect.extract w (w ++ "/image.zip"),
       Effect.extract w (w ++ "/body-regions.zip"),
       Effect.extract w (w ++ "/body-parts.zip"),
       Effect.pbarUpdate] ++ write_phase_effects w t cfg env := by
    simp [case_trace, downloadsOf, String.append_assoc]
  exact ⟨fs ++ (case_trace w t cfg env).filterMap Effect.createdPath,
    by rw [handle_case_of_not_skip fs w t cfg env hskip, htr],
    write_phase_effects_no_download_extract w t cfg env⟩

/-- The configuration `cfgA` with `--force-download` set, so the
resume check never skips. -/
def cfgB : CaseConfig :=
  { cfgA with force := true }

theorem handle_case_download_then_extract_witness :
    (handle_case [] "wd" "td" cfgB envA).isOk = true ∧
    (write_phase_effects "wd" "td" cfgB envA).all
      (fun e => !e.isDownload && !e.isExtract) = true := by
  obtain ⟨fs2, heq, hall⟩ :=
    handle_case_download_then_extract [] "wd" "td" cfgB envA (by decide)
  exact ⟨by rw [heq]; rfl, hall⟩

theorem tpCount_add_fpCount (gt pred : List Bool)
    (h : gt.length = pred.length) :
    tpCount gt pred + fpCount gt pred = countTrue pred := by
  induction gt generalizing pred with
  | nil =>
    cases pred with
    | nil => rfl
    | cons b ps => simp at h
  | cons a gs ih =>
    cases pred with
    | nil => simp at h
    | cons b ps =>
      have hh : gs.length = ps.length := by simpa using h
      have hi := ih ps hh
      simp only [tpCount, fpCount, countTrue] at hi ⊢
      simp only [List.zip_cons_cons, List.countP_cons, List.count_cons]
      cases a <;> cases b <;> simp_all <;> omega

theorem tpCount_add_fnCount (gt pred : List Bool)
    (h : gt.length = pred.length) :
    tpCount gt pred + fnCount gt pred = countTrue gt := by
  induction gt generalizing pred with
  | nil =>
    cases pred with
    | nil => rfl
    | cons b ps => simp at h
  | cons a gs ih =>
    cases pred with
    | nil => simp at h
    | cons b ps =>
      have hh : gs.length = ps.length := by simpa using h
      have hi := ih ps hh
      simp only [tpCount, fnCount, countTrue] at hi ⊢
      simp only [List.zip_cons_cons, List.countP_cons, List.count_cons]
      cases a <;> cases b <;> simp_all <;> omega

theorem countTrue_pos (l : List Bool) (h : l.any id = true) :
    1 ≤ countTrue l := by
  rw [List.any_eq_true] at h
  obtain ⟨x, hx, hid⟩ := h
  have hxt : x = true := by simpa using hid
  subst hxt
  exact List.count_pos_iff.2 hx

/-- C7. Metric formulas: when both arrays contain a true voxel,
`compute_metrics` returns `precision = tp/(tp+fp)`,
`recall = tp/(tp+fn)` and `dice = tp/(tp + 0.5*fp + 0.5*fn)` where
`tp`, `fp`, `fn` count `gt&pred`, `~gt&pred`, `gt&~pred`; when only
`gt` is non-empty it returns `tp = 0`, `fp = 0`, `fn = gt.sum()` and
all four listed metrics 0; when only `pred` is non-empty it returns
`tp = 0`, `fp = pred.sum()`, `fn = 0` and all four listed metrics 0. -/
theorem compute_metrics_formulas (gt pred : List Bool) (env : SurfaceEnv) :
    (gt.any id = true → pred.any id = true →
      ((compute_metrics gt pred env).lookup "tp"
          = some (tpCount gt pred : ℚ) ∧
       (compute_metrics gt pred env).lookup "fp"
          = some (fpCount gt pred : ℚ) ∧
       (compute_metrics gt pred env).lookup "fn"
          = some (fnCount gt pred : ℚ) ∧
       (compute_metrics gt pred env).lookup "precision"
          = some ((tpCount gt pred : ℚ)
              / ((tpCount gt pred : ℚ) + (fpCount gt pred : ℚ))) ∧
       (compute_metrics gt pred env).lookup "recall"
          = some ((tpCount gt pred : ℚ)
              / ((tpCount gt pred : ℚ) + (fnCount gt pred : ℚ))) ∧
       (compute_metrics gt pred env).lookup "dice"
          = some ((tpCount gt pred : ℚ)
              / ((tpCount gt pred : ℚ) + (1/2) * (fpCount gt pred : ℚ)
                  + (1/2) * (fnCount gt pred : ℚ))))) ∧
    (gt.any id = true → pred.any id = false →
      ((compute_metrics gt pred env).lookup "tp" = some 0 ∧
       (compute_metrics gt pred env).lookup "fp" = some 0 ∧
       (compute_metrics gt pred env).lookup "fn"
          = some (countTrue gt : ℚ) ∧
       ∀ m ∈ metricNames, (compute_metrics gt pred env).lookup m = some 0)) ∧
    (pred.any id = true → gt.any id = false →
      ((compute_metrics gt pred env).lookup "tp" = some 0 ∧
       (compute_metrics gt pred env).lookup "fp"
          = some (countTrue pred : ℚ) ∧
       (compute_metrics gt pred env).lookup "fn" = some 0 ∧
       ∀ m ∈ metricNames, (compute_metrics gt pred env).lookup m = some 0)) := by
  refine ⟨?_, ?_, ?_⟩
  · intro h1 h2
    simp [compute_metrics, h1, h2, List.lookup]
  · intro h1 h2
    refine ⟨?_, ?_, ?_, ?_⟩ <;>
      simp [compute_metrics, h1, h2, List.lookup, metricNames]
  · intro h1 h2
    refine ⟨?_, ?_, ?_, ?_⟩ <;>
      simp [compute_metrics, h1, h2, List.lookup, metricNames]

/-- A concrete surface-distance environment for witnesses. -/
def surfEnvA : SurfaceEnv :=
  { avg_gt_to_pred := 1
    avg_pred_to_gt := 2
    surface_dice_1mm := 3/10
    surface_dice_2mm := 6/10
    surface_dice_3mm := 9/10 }

theorem compute_metrics_formulas_witness :
    (compute_metrics [true, false] [true, true] surfEnvA).lookup "precision"
      = some (1/2) ∧
    (compute_metrics [true, false] [true, true] surfEnvA).lookup "recall"
      = some 1 ∧
    (compute_metrics [true, false] [true, true] surfEnvA).lookup "dice"
      = some (2/3) := by
  obtain ⟨-, -, -, hp, hr, hd⟩ :=
    (compute_metrics_formulas [true, false] [true, true] surfEnvA).1
      (by decide) (by decide)
  have h1 : tpCount [true, false] [true, true] = 1 := by decide
  have h2 : fpCount [true, false] [true, true] = 1 := by decide
  have h3 : fnCount [true, false] [true, true] = 0 := by decide
  refine ⟨?_, ?_, ?_⟩
  · rw [hp, h1, h2]; norm_num
  · rw [hr, h1, h3]; norm_num
  · rw [hd, h1, h2, h3]; norm_num

/-- C10. Division safety in `compute_metrics`: the three divisions are
only taken in the branch where both arrays contain a true voxel, and
there `tp + fp = pred.sum() ≥ 1` and `tp + fn = gt.sum() ≥ 1`, so no
denominator is zero; when both arrays are all-false the returned
dictionary is exactly `{tp: 0, fp: 0, fn: 0}` with no metric keys. -/
theorem compute_metrics_division_safety (gt pred : List Bool)
    (h : gt.length = pred.length) :
    (gt.any id = true → pred.any id = true →
      (tpCount gt pred + fpCount gt pred = countTrue pred ∧
       1 ≤ countTrue pred ∧
       tpCount gt pred + fnCount gt pred = countTrue gt ∧
       1 ≤ countTrue gt)) ∧
    (gt.any id = false → pred.any id = false → ∀ env : SurfaceEnv,
      compute_metrics gt pred env = [("tp", 0), ("fp", 0), ("fn", 0)]) := by
  constructor
  · intro h1 h2
    exact ⟨tpCount_add_fpCount gt pred h, countTrue_pos pred h2,
           tpCount_add_fnCount gt pred h, countTrue_pos gt h1⟩
  · intro h1 h2 env
    simp [compute_metrics, h1, h2]

theorem compute_metrics_division_safety_witness :
    tpCount [true, false] [false, true] + fpCount [true, false] [false, true]
      = countTrue [false, true] ∧
    1 ≤ countTrue [false, true] ∧
    tpCount [true, false] [false, true] + fnCount [true, false] [false, true]
      = countTrue [true, false] ∧
    1 ≤ countTrue [true, false] :=
  (compute_metrics_division_safety [true, false] [false, true] rfl).1
    (by decide) (by decide)

/-! ## Lemmas about `generate_dataset` -/

/-- Total number of occurrences of the id `s` over the `val` lists of
all five splits. -/
def valCount (sp : List FoldSplit) (s : String) : ℕ :=
  (sp.map (fun f => f.val.count s)).sum

/-- Total number of occurrences of the id `s` over the `train` lists
of all five splits. -/
def trainCount (sp : List FoldSplit) (s : String) : ℕ :=
  (sp.map (fun f => f.train.count s)).sum

/-- The ids of the exported training slices (the ones written into the
`Tr` layout). -/
def trainingIds (ex : List ExportedSlice) : List String :=
  (ex.filter (fun e => e.layout == "Tr")).map (fun e => e.name)

/-- The slices `generate_dataset` exports for one row, from the spec:
exactly the z-slices of the label containing no 255, named
`{id}_{slice_index}`, into the `Ts` layout for test rows and the `Tr`
layout otherwise. -/
def rowExports (row : CaseRow) : List ExportedSlice :=
  (annotatedSlices row.label).map (fun p =>
    { name := row.id ++ "_" ++ toString p.1
      layout := if row.split = "test" then "Ts" else "Tr"
      img := row.image.getD p.1 []
      label := p.2 })

theorem update_splits_length (sp : List FoldSplit) (fid : ℕ) (x : String) :
    (update_splits sp fid x).length = sp.length := by
  induction sp generalizing fid with
  | nil => rfl
  | cons s rest ih =>
    cases fid with
    | zero => simp [update_splits]
    | succ n => simp [update_splits, ih]

theorem valCount_update_splits (sp : List FoldSplit) (fid : ℕ) (x s : String)
    (h : fid < sp.length) :
    valCount (update_splits sp fid x) s
      = valCount sp s + (if x = s then 1 else 0) := by
  induction sp generalizing fid with
  | nil => simp at h
  | cons hd rest ih =>
    cases fid with
    | zero =>
      simp only [update_splits, valCount, List.map_cons, List.map_map,
        List.sum_cons, List.count_append]
      have hmap : rest.map
          ((fun f => f.val.count s) ∘ (fun r => { r with train := r.train ++ [x] }))
          = rest.map (fun f => f.val.count s) := rfl
      rw [hmap]
      by_cases hx : x = s <;> simp [hx, List.count_singleton] <;> omega
    | succ n =>
      have hn : n < rest.length := by simpa using h
      simp only [update_splits, valCount, List.map_cons, List.sum_cons]
      have := ih n hn
      simp only [valCount] at this
      omega

theorem trainCount_map_append (rest : List FoldSplit) (x s : String) :
    trainCount (rest.map (fun r => { r with train := r.train ++ [x] })) s
      = trainCount rest s + rest.length * (if x = s then 1 else 0) := by
  induction rest with
  | nil => simp [trainCount]
  | cons hd tl ih =>
    simp only [trainCount, List.map_cons, List.map_map, List.sum_cons,
      List.count_append] at ih ⊢
    by_cases hx : x = s <;> simp [hx, List.count_singleton] at ih ⊢ <;> omega

theorem trainCount_update_splits (sp : List FoldSplit) (fid : ℕ) (x s : String)
    (h : fid < sp.length) :
    trainCount (update_splits sp fid x) s
      = trainCount sp s + (if x = s then sp.length - 1 else 0) := by
  induction sp generalizing fid with
  | nil => simp at h
  | cons hd rest ih =>
    cases fid with
    | zero =>
      simp only [update_splits, trainCount, List.map_cons, List.sum_cons]
      have := trainCount_map_append rest x s
      simp only [trainCount] at this
      rw [this]
      by_cases hx : x = s <;> simp [hx] <;> omega
    | succ n =>
      have hn : n < rest.length := by simpa using h
      have := ih n hn
      simp only [trainCount] at this
      simp only [update_splits, trainCount, List.map_cons, List.sum_cons,
        List.count_append, this]
      by_cases hx : x = s <;> simp [hx, List.count_singleton] <;> omega

theorem trainingSplit_facts (s : String) (h : s ∈ trainingSplits) :
    pyContains "fold" s = true ∧ fold_id_of s < 5 ∧ s ≠ "test" := by
  simp only [trainingSplits, List.mem_cons, List.mem_singleton,
    List.not_mem_nil, or_false] at h
  rcases h with rfl | rfl | rfl | rfl | rfl <;>
    exact ⟨by decide, by decide, by decide⟩

theorem pyContains_fold_test : pyContains "fold" "test" = false := by decide

theorem process_slice_exports (row : CaseRow) (lay : String)
    (st : DatasetState) (p : ℕ × Slice2D) :
    (process_slice row lay st p).exports = st.exports ++
      [{ name := row.id ++ "_" ++ toString p.1, layout := lay,
         img := row.image.getD p.1 [], label := p.2 }] := by
  unfold process_slice
  split <;> rfl

theorem process_slice_num (row : CaseRow) (lay : String)
    (st : DatasetState) (p : ℕ × Slice2D) :
    (process_slice row lay st p).num_training_cases =
      st.num_training_cases
        + (if pyContains "fold" row.split = true then 1 else 0) := by
  unfold process_slice
  split <;> simp_all

theorem process_slice_splits (row : CaseRow) (lay : String)
    (st : DatasetState) (p : ℕ × Slice2D) :
    (process_slice row lay st p).splits =
      if pyContains "fold" row.split = true then
        update_splits st.splits (fold_id_of row.split)
          (row.id ++ "_" ++ toString p.1)
      else st.splits := by
  unfold process_slice
  split <;> simp_all

theorem foldl_process_slice_exports (row : CaseRow) (lay : String)
    (l : List (ℕ × Slice2D)) (st : DatasetState) :
    (l.foldl (process_slice row lay) st).exports =
      st.exports ++ l.map (fun p =>
        { name := row.id ++ "_" ++ toString p.1, layout := lay,
          img := row.image.getD p.1 [], label := p.2 }) := by
  induction l generalizing st with
  | nil => simp
  | cons p ps ih =>
    simp only [List.foldl_cons, List.map_cons]
    rw [ih, process_slice_exports]
    simp

/-- The invariant of C9: five splits, every training id counted once
across the `val` lists and four times across the `train` lists, and
`num_training_cases` equal to the number of training ids. -/
def SplitInv (st : DatasetState) : Prop :=
  st.splits.length = 5 ∧
  (∀ s : String,
    valCount st.splits s = (trainingIds st.exports).count s ∧
    trainCount st.splits s = 4 * (trainingIds st.exports).count s) ∧
  st.num_training_cases = (trainingIds st.exports).length

theorem trainingIds_append_tr (ex : List ExportedSlice) (e : ExportedSlice)
    (h : e.layout = "Tr") :
    trainingIds (ex ++ [e]) = trainingIds ex ++ [e.name] := by
  simp [trainingIds, List.filter_append, h]

theorem trainingIds_append_ts (ex : List ExportedSlice) (e : ExportedSlice)
    (h : e.layout ≠ "Tr") :
    trainingIds (ex ++ [e]) = trainingIds ex := by
  have hb : (e.layout == "Tr") = false := by
    simpa using h
  simp [trainingIds, List.filter_append, hb]

theorem process_slice_inv_tr (row : CaseRow) (st : DatasetState)
    (p : ℕ × Slice2D)
    (hfold : pyContains "fold" row.split = true)
    (hfid : fold_id_of row.split < 5)
    (hinv : SplitInv st) : SplitInv (process_slice row "Tr" st p) := by
  obtain ⟨hlen, hcount, hnum⟩ := hinv
  have hids : trainingIds (process_slice row "Tr" st p).exports
      = trainingIds st.exports ++ [row.id ++ "_" ++ toString p.1] := by
    rw [process_slice_exports, trainingIds_append_tr _ _ rfl]
  have hsp : (process_slice row "Tr" st p).splits
      = update_splits st.splits (fold_id_of row.split)
          (row.id ++ "_" ++ toString p.1) := by
    rw [process_slice_splits, if_pos hfold]
  have hfid5 : fold_id_of row.split < st.splits.length := by
    rw [hlen]; exact hfid
  refine ⟨?_, ?_, ?_⟩
  · rw [hsp, update_splits_length, hlen]
  · intro s
    constructor
    · rw [hsp, valCount_update_splits _ _ _ _ hfid5, hids,
        List.count_append, (hcount s).1]
      by_cases hx : row.id ++ "_" ++ toString p.1 = s <;>
        simp [hx, List.count_singleton]
    · rw [hsp, trainCount_update_splits _ _ _ _ hfid5, hids,
        List.count_append, (hcount s).2, hlen]
      by_cases hx : row.id ++ "_" ++ toString p.1 = s <;>
        simp [hx, List.count_singleton] <;> omega
  · rw [process_slice_num, if_pos hfold, hids]
    simp [hnum]

theorem process_slice_inv_ts (row : CaseRow) (st : DatasetState)
    (p : ℕ × Slice2D)
    (hfold : pyContains "fold" row.split = false)
    (hinv : SplitInv st) : SplitInv (process_slice row "Ts" st p) := by
  obtain ⟨hlen, hcount, hnum⟩ := hinv
  have hids : trainingIds (process_slice row "Ts" st p).exports
      = trainingIds st.exports := by
    rw [process_slice_exports, trainingIds_append_ts]
    simp
  have hsp : (process_slice row "Ts" st p).splits = st.splits := by
    rw [process_slice_splits, if_neg (by simp [hfold])]
  refine ⟨?_, ?_, ?_⟩
  · rw [hsp, hlen]
  · intro s
    rw [hsp, hids]
    exact hcount s
  · rw [process_slice_num, if_neg (by simp [hfold]), hids, hnum]
    omega

theorem foldl_process_slice_inv (row : CaseRow) (lay : String)
    (l : List (ℕ × Slice2D)) (st : DatasetState)
    (hstep : ∀ st2 p, SplitInv st2 → SplitInv (process_slice row lay st2 p))
    (hinv : SplitInv st) :
    SplitInv (l.foldl (process_slice row lay) st) := by
  induction l generalizing st with
  | nil => exact hinv
  | cons p ps ih => exact ih _ (hstep st p hinv)

/-- Changing only `eval_copies` leaves the C9 invariant intact. -/
theorem splitInv_eval_copies (st : DatasetState) (ec : List String)
    (hinv : SplitInv st) : SplitInv { st with eval_copies := ec } :=
  hinv

theorem process_row_inv (row : CaseRow) (st st2 : DatasetState)
    (h : process_row row st = .ok st2) (hinv : SplitInv st) :
    SplitInv st2 := by
  unfold process_row at h
  split at h
  · obtain ⟨hfold, hfid, -⟩ :=
      trainingSplit_facts row.split (by simp_all [List.elem_iff])
    cases h
    exact foldl_process_slice_inv _ _ _ _
      (fun st2 p hi => process_slice_inv_tr row st2 p hfold hfid hi) hinv
  · split at h
    · cases h
      refine foldl_process_slice_inv _ _ _ _
        (fun st2 p hi => process_slice_inv_ts row st2 p ?_ hi)
        (splitInv_eval_copies st _ hinv)
      have ht : row.split = "test" := by assumption
      rw [ht]
      exact pyContains_fold_test
    · exact Except.noConfusion h

theorem foldlM_except_inv {σ ρ ε : Type} (f : σ → ρ → Except ε σ)
    (P : σ → Prop)
    (hstep : ∀ st r st2, f st r = .ok st2 → P st → P st2) :
    ∀ (l : List ρ) (st : σ) (res : σ),
      l.foldlM f st = .ok res → P st → P res := by
  intro l
  induction l with
  | nil =>
    intro st res h hp
    simp only [List.foldlM_nil] at h
    cases h
    exact hp
  | cons r rs ih =>
    intro st res h hp
    rw [List.foldlM_cons] at h
    cases hf : f st r with
    | error e =>
      rw [hf] at h
      exact Except.noConfusion h
    | ok st2 =>
      rw [hf] at h
      exact ih st2 res h (hstep st r st2 hf hp)

/-- C9. Cross-validation split invariant: in a successful
`generate_dataset` run there are five splits, every training slice id
occurrence is counted exactly once over the `val` lists and exactly
four times over the `train` lists, and `num_training_cases` equals the
total number of exported training slice ids. -/
theorem generate_dataset_split_invariant (rows : List CaseRow)
    (res : DatasetState) (h : generate_dataset rows = .ok res) :
    res.splits.length = 5 ∧
    (∀ s : String,
      valCount res.splits s = (trainingIds res.exports).count s ∧
      trainCount res.splits s = 4 * (trainingIds res.exports).count s) ∧
    res.num_training_cases = (trainingIds res.exports).length := by
  have hinit : SplitInv
      { num_training_cases := 0, splits := initialSplits,
        exports := [], eval_copies := [] } := by
    refine ⟨rfl, ?_, rfl⟩
    intro s
    constructor <;> simp [valCount, trainCount, initialSplits, trainingIds]
  exact foldlM_except_inv _ SplitInv
    (fun st r st2 hf hp => process_row_inv r st st2 hf hp)
    rows _ res h hinit

theorem process_row_exports (row : CaseRow) (st st2 : DatasetState)
    (h : process_row row st = .ok st2) :
    st2.exports = st.exports ++ rowExports row := by
  unfold process_row at h
  split at h
  · rename_i hc
    obtain ⟨-, -, hne⟩ :=
      trainingSplit_facts row.split (List.elem_iff.1 hc)
    cases h
    rw [foldl_process_slice_exports]
    congr 1
    simp [rowExports, hne]
  · split at h
    · rename_i ht
      cases h
      rw [foldl_process_slice_exports]
      simp [rowExports, ht]
    · exact Except.noConfusion h

theorem process_row_invalid (row : CaseRow) (st : DatasetState)
    (h1 : row.split ∉ trainingSplits) (h2 : row.split ≠ "test") :
    process_row row st = .error row.split := by
  unfold process_row
  rw [if_neg (fun hc => h1 (List.elem_iff.1 hc)), if_neg h2]

theorem foldlM_process_row_exports :
    ∀ (rows : List CaseRow) (st res : DatasetState),
      rows.foldlM (fun st row => process_row row st) st = .ok res →
      res.exports = st.exports ++ rows.flatMap rowExports := by
  intro rows
  induction rows with
  | nil =>
    intro st res h
    simp only [List.foldlM_nil] at h
    cases h
    simp
  | cons r rs ih =>
    intro st res h
    rw [List.foldlM_cons] at h
    cases hf : process_row r st with
    | error e =>
      rw [hf] at h
      exact Except.noConfusion h
    | ok st2 =>
      rw [hf] at h
      rw [ih st2 res h, process_row_exports r st st2 hf]
      simp [List.append_assoc]

theorem generate_dataset_error_aux :
    ∀ (rows : List CaseRow) (st : DatasetState),
      (∃ row ∈ rows, row.split ∉ trainingSplits ∧ row.split ≠ "test") →
      ∃ msg, rows.foldlM (fun st row => process_row row st) st
        = .error msg := by
  intro rows
  induction rows with
  | nil =>
    intro st h
    simp at h
  | cons r rs ih =>
    intro st h
    rw [List.foldlM_cons]
    cases hf : process_row r st with
    | error e => exact ⟨e, rfl⟩
    | ok st2 =>
      obtain ⟨row, hmem, hinv⟩ := h
      rcases List.mem_cons.1 hmem with rfl | hmem2
      · rw [process_row_invalid row st hinv.1 hinv.2] at hf
        exact Except.noConfusion hf
      · obtain ⟨msg, hmsg⟩ := ih st2 ⟨row, hmem2, hinv⟩
        exact ⟨msg, hmsg⟩

/-- C8. Slice export filter: in a successful run, the exported slices
are exactly, and in order, the z-slices of each row's label volume
containing no voxel 255, each named `{id}_{slice_index}` and placed in
the `Ts` layout for test rows and the `Tr` layout for fold rows
(`rowExports`); consequently no exported label slice contains a 255,
so the `assert 255 not in label_sl` is unreachable; and a run over
rows containing a split that is neither `fold-1`…`fold-5` nor `test`
raises `ValueError`. -/
theorem generate_dataset_slice_export (rows : List CaseRow) :
    (∀ res, generate_dataset rows = .ok res →
      res.exports = rows.flatMap rowExports ∧
      ∀ e ∈ res.exports, sliceHas255 e.label = false) ∧
    ((∃ row ∈ rows, row.split ∉ trainingSplits ∧ row.split ≠ "test") →
      ∃ msg, generate_dataset rows = .error msg) := by
  constructor
  · intro res h
    have hex := foldlM_process_row_exports rows _ res h
    simp only [List.nil_append] at hex
    refine ⟨hex, ?_⟩
    intro e he
    rw [hex] at he
    obtain ⟨row, -, he2⟩ := List.mem_flatMap.1 he
    simp only [rowExports, List.mem_map] at he2
    obtain ⟨p, hp, rfl⟩ := he2
    simpa using (List.mem_filter.1 hp).2
  · exact generate_dataset_error_aux rows _

/-- A training row whose label has a 255 in slice 0 only. -/
def rowA : CaseRow :=
  { id := "a", split := "fold-2",
    image := [[[7]], [[8]]],
    label := [[[255]], [[1]]] }

/-- A test row with one fully annotated slice. -/
def rowB : CaseRow :=
  { id := "b", split := "test",
    image := [[[5]]], label := [[[2]]] }

/-- A row with an invalid split name. -/
def rowBad : CaseRow :=
  { id := "c", split := "train", image := [], label := [] }

def rowsA : List CaseRow := [rowA, rowB]

/-- The state `generate_dataset` reaches on `rowsA`. -/
def resA : DatasetState :=
  { num_training_cases := 1
    splits := [{ train := ["a_1"], val := [] },
               { train := [], val := ["a_1"] },
               { train := ["a_1"], val := [] },
               { train := ["a_1"], val := [] },
               { train := ["a_1"], val := [] }]
    exports := [{ name := "a_1", layout := "Tr", img := [[8]], label := [[1]] },
                { name := "b_0", layout := "Ts", img := [[5]], label := [[2]] }]
    eval_copies := ["b_0000.nii.gz", "b.nii.gz"] }

theorem generate_dataset_split_invariant_witness :
    valCount resA.splits "a_1" = (trainingIds resA.exports).count "a_1" ∧
    trainCount resA.splits "a_1"
      = 4 * (trainingIds resA.exports).count "a_1" ∧
    resA.num_training_cases = (trainingIds resA.exports).length := by
  have h := generate_dataset_split_invariant rowsA resA (by rfl)
  exact ⟨(h.2.1 "a_1").1, (h.2.1 "a_1").2, h.2.2⟩

theorem generate_dataset_slice_export_witness :
    resA.exports = rowsA.flatMap rowExports ∧
    (generate_dataset [rowBad]).isOk = false := by
  constructor
  · exact ((generate_dataset_slice_export rowsA).1 resA (by rfl)).1
  · obtain ⟨msg, hmsg⟩ := (generate_dataset_slice_export [rowBad]).2
      ⟨rowBad, List.mem_singleton.2 rfl, by decide, by decide⟩
    rw [hmsg]
    rfl

end Saros
